import Mathlib

/-
Verification development for the Telegram accounting bot.

The repository keeps two revisions of the workflow and tool layer:
the live one (the accounting workflow that dispatches commands with a
permission gate, importing the showAllBills / dailySettlement tools that
ignore currency in the sums), and an older one under src/mastra/tools
(queryTools.ts, whose showAllBills converts USD rows with the exchange
rate and filters records by the last-refresh cutoff timestamp).
Both are embedded below; each definition's comment names its source.

Numbers that the TypeScript code holds as JS floats are embedded as
rationals (the command amounts and fee rates are short decimal literals,
for which JS float arithmetic in these formulas is exact in the ranges
exercised here); spreadsheet cells that hold status flags are embedded
as the literal strings the code compares against.
-/

namespace TGBot

/-- Currency code stored with a ledger row. The code only ever writes the
strings THB and USD (the match writes "USD" when the dollar suffix group is
present, else "THB"). -/
inductive Currency
  | thb
  | usd
deriving DecidableEq

/-- One data row of the Deposits or Withdrawals sheet, with the columns the
tools read: row 0 id, row 1 timestamp, row 2 groupId, row 3 userId,
row 4 username, row 5 amount (parseFloat), row 6 currency, row 7 status,
row 8 source message id. Status values written by the code: 正常 (active),
已删除 (deleted), 已结算 (settled). -/
structure LedgerRow where
  id : String
  timestamp : String
  groupId : String
  userId : String
  username : String
  amount : ℚ
  currency : Currency
  status : String
  sourceMessageId : String
deriving DecidableEq

/-- One row of the GroupSettings sheet, with the cells the embedded tools
read: column A group id, B exchange rate, C income fee rate, D outgoing fee
rate, E the cell the permission check compares against 是 (all-users mode,
written by setAllUsersMode), H last refresh time, J language. -/
structure SettingsRow where
  groupId : String
  exchangeRate : ℚ
  incomeFeeRate : ℚ
  outgoingFeeRate : ℚ
  cutoffHour : Int
  allUsersCell : String
  lastRefreshTime : String
  language : String
deriving DecidableEq

/-- One row of the Operators sheet: column A group id, B user id, C username,
E status (正常 = active, 已删除 after removal). -/
structure OperatorRow where
  groupId : String
  userId : String
  username : String
  status : String
deriving DecidableEq

/-- Row filter shared by the showAllBills sum loops and deleteAllRecords:
group id matches and status is 正常. -/
def activeForGroup (gid : String) (r : LedgerRow) : Bool :=
  r.groupId == gid && r.status == "正常"

/-- Sum of the amount column over a list of rows. -/
def rowsSum (rows : List LedgerRow) : ℚ :=
  (rows.map (fun r => r.amount)).sum

/-- Settings lookup of showAllBills and dailySettlement (live queryTools
revision): the first GroupSettings row whose column A equals the group id
supplies the two fee rates; a group with no row gets the defaults 6 and 0. -/
def lookupFeeRates (settings : List SettingsRow) (gid : String) : ℚ × ℚ :=
  match settings.find? (fun s => s.groupId == gid) with
  | some s => (s.incomeFeeRate, s.outgoingFeeRate)
  | none => (6, 0)

/-- The aggregate figures showAllBills and dailySettlement compute. -/
structure BillReport where
  totalIncome : ℚ
  totalOutgoing : ℚ
  incomeCount : Nat
  outgoingCount : Nat
  actualIncome : ℚ
  actualOutgoing : ℚ
  netProfit : ℚ
deriving DecidableEq

/-- The pure computation of showAllBills in the queryTools revision the live
accounting workflow imports: plain sums of the active matching rows of the
Deposits and Withdrawals sheets (the currency column is not consulted and no
exchange-rate conversion happens), then fee application
actualIncome = totalIncome * (100 - incomeFeeRate) / 100,
actualOutgoing = totalOutgoing * (1 + outgoingFeeRate / 100),
netProfit = actualIncome - actualOutgoing. -/
def showAllBillsCalc (settings : List SettingsRow) (deps wds : List LedgerRow)
    (gid : String) : BillReport :=
  let rates := lookupFeeRates settings gid
  let incRows := deps.filter (activeForGroup gid)
  let outRows := wds.filter (activeForGroup gid)
  let totalIncome := rowsSum incRows
  let totalOutgoing := rowsSum outRows
  let feeMultiplier := (100 - rates.1) / 100
  let actualIncome := totalIncome * feeMultiplier
  let actualOutgoing := totalOutgoing * (1 + rates.2 / 100)
  { totalIncome := totalIncome
    totalOutgoing := totalOutgoing
    incomeCount := incRows.length
    outgoingCount := outRows.length
    actualIncome := actualIncome
    actualOutgoing := actualOutgoing
    netProfit := actualIncome - actualOutgoing }

/-- Date part of a stored timestamp, as dailySettlement extracts it with
timestamp.split(" ")[0]: the characters before the first space. -/
def dateOf (ts : String) : String :=
  String.mk (ts.data.takeWhile (fun c => c ≠ ' '))

/-- Row filter of dailySettlement: group id matches, status is 正常 and the
date part of the timestamp is today's date string. -/
def settleIncluded (gid today : String) (r : LedgerRow) : Bool :=
  r.groupId == gid && r.status == "正常" && dateOf r.timestamp == today

/-- The per-row update dailySettlement performs after reporting: every
included row has its status cell overwritten with 已结算; other rows are
untouched. -/
def markSettled (gid today : String) (r : LedgerRow) : LedgerRow :=
  if settleIncluded gid today r then { r with status := "已结算" } else r

/-- Result of one dailySettlement run: its report and the two sheets after
the status updates. -/
structure SettleState where
  report : BillReport
  deps : List LedgerRow
  wds : List LedgerRow
deriving DecidableEq

/-- The dailySettlement tool (live queryTools revision): filter both sheets
to today's active rows of the group, compute the same fee-adjusted report as
showAllBills, then mark every included row 已结算. -/
def dailySettlementRun (settings : List SettingsRow) (gid today : String)
    (deps wds : List LedgerRow) : SettleState :=
  let rates := lookupFeeRates settings gid
  let incRows := deps.filter (settleIncluded gid today)
  let outRows := wds.filter (settleIncluded gid today)
  let totalIncome := rowsSum incRows
  let totalOutgoing := rowsSum outRows
  let feeMultiplier := (100 - rates.1) / 100
  let actualIncome := totalIncome * feeMultiplier
  let actualOutgoing := totalOutgoing * (1 + rates.2 / 100)
  { report :=
      { totalIncome := totalIncome
        totalOutgoing := totalOutgoing
        incomeCount := incRows.length
        outgoingCount := outRows.length
        actualIncome := actualIncome
        actualOutgoing := actualOutgoing
        netProfit := actualIncome - actualOutgoing }
    deps := deps.map (markSettled gid today)
    wds := wds.map (markSettled gid today) }

/-- The per-row update of deleteAllRecords: every active row of the group has
its status cell overwritten with 已删除. -/
def deleteMarked (gid : String) (r : LedgerRow) : LedgerRow :=
  if activeForGroup gid r then { r with status := "已删除" } else r

/-- The deleteAllRecords tool: mark every active row of the group 已删除 in
both sheets and report how many rows were marked in each. -/
def deleteAllRun (gid : String) (rows : List LedgerRow) : List LedgerRow × Nat :=
  (rows.map (deleteMarked gid), (rows.filter (activeForGroup gid)).length)

/-- Whitespace test used for the trim and the fee-rate patterns. JS trim and
the regex class \s cover a larger Unicode class; the commands embedded here
only ever meet these four characters. -/
def isWs (c : Char) : Bool :=
  c = ' ' || c = '\t' || c = '\n' || c = '\r'

/-- msg.trim(): drop whitespace from both ends. -/
def trimChars (l : List Char) : List Char :=
  ((l.dropWhile isWs).reverse.dropWhile isWs).reverse

/-- Longest leading run of decimal digits and the remainder: the greedy
match of a leading regex group of one or more digits. -/
def takeDigits : List Char → List Char × List Char
  | [] => ([], [])
  | c :: l =>
    if c.isDigit then
      let p := takeDigits l
      (c :: p.1, p.2)
    else ([], c :: l)

/-- Numeric value of one digit character. -/
def digitVal (c : Char) : Nat :=
  c.toNat - 48

/-- Numeric value of a digit string, most significant first. -/
def digitsVal (l : List Char) : Nat :=
  l.foldl (fun a c => 10 * a + digitVal c) 0

/-- Decimal value of an integer digit string and a fractional digit string:
the parseFloat semantics of a capture of shape digits, optionally followed by
a dot and more digits. -/
def decValue (intPart fracPart : List Char) : ℚ :=
  (digitsVal intPart : ℚ) + (digitsVal fracPart : ℚ) / (10 : ℚ) ^ fracPart.length

/-- Match of the optional dollar-suffix tail of the amount regex against the
rest of the input: end of input means no suffix, a lone dollar sign means the
suffix is present, anything else fails the anchored match. -/
def dollarSuffix (l : List Char) : Option Bool :=
  match l with
  | [] => some false
  | c :: r => if c = '$' ∧ r = [] then some true else none

/-- Anchored match of the amount part of the deposit and withdraw commands,
one or more digits, an optional dot-and-digits group, and an optional dollar
sign, against the whole remaining input; returns the parseFloat value of the
numeric capture and whether the dollar sign was present. -/
def matchAmountDollar (l : List Char) : Option (ℚ × Bool) :=
  let p := takeDigits l
  if p.1.isEmpty then none
  else
    match p.2 with
    | [] => some (decValue p.1 [], false)
    | c :: r =>
      if c = '$' ∧ r = [] then some (decValue p.1 [], true)
      else
        if c = '.' then
          let q := takeDigits r
          if q.1.isEmpty then none
          else
            match dollarSuffix q.2 with
            | some dollar => some (decValue p.1 q.1, dollar)
            | none => none
        else none

/-- Match of a whole message against a sign character followed by the amount
pattern: the deposit regex with sign plus, the withdraw regex with sign
minus. -/
def matchSigned (sign : Char) (l : List Char) : Option (ℚ × Bool) :=
  match l with
  | [] => none
  | c :: rest => if c = sign then matchAmountDollar rest else none

/-- Anchored match of one or more digits with an optional dot-and-digits
group against the whole remaining input (the unsigned part of the fee-rate
number). -/
def matchNumber (l : List Char) : Option ℚ :=
  let p := takeDigits l
  if p.1.isEmpty then none
  else
    match p.2 with
    | [] => some (decValue p.1 [])
    | c :: r =>
      if c = '.' then
        let q := takeDigits r
        if q.1.isEmpty then none
        else if q.2.isEmpty then some (decValue p.1 q.1) else none
      else none

/-- Strip an exact literal from the front of the input. -/
def stripLit : List Char → List Char → Option (List Char)
  | [], l => some l
  | _ :: _, [] => none
  | p :: ps, c :: cs => if c = p then stripLit ps cs else none

/-- Anchored match of a fee-rate command: the literal keyword, any run of
whitespace, then an optionally negated decimal number reaching the end of the
input; returns the parseFloat value of the signed capture. -/
def matchFeeRate (lit msg : List Char) : Option ℚ :=
  match stripLit lit msg with
  | none => none
  | some rest =>
    match rest.dropWhile isWs with
    | [] => none
    | c :: r =>
      if c = '-' then (matchNumber r).map (fun q => -q)
      else matchNumber (c :: r)

/-- Prefix test of one character list against another. -/
def startsWithSeq : List Char → List Char → Bool
  | _, [] => true
  | [], _ :: _ => false
  | a :: l, p :: ps => a == p && startsWithSeq l ps

/-- Substring containment, the embedding of msg.includes(pattern). -/
def containsSeq (l pat : List Char) : Bool :=
  startsWithSeq l pat ||
    match l with
    | [] => false
    | _ :: t => containsSeq t pat

/-- The typed command a message resolves to. One constructor per branch of
the dispatch in processAccountingMessage of the live accounting workflow. -/
inductive Command
  | whoami
  | addOp
  | removeOp
  | listOps
  | deposit (amount : ℚ) (currency : Currency)
  | withdraw (amount : ℚ) (currency : Currency)
  | showLedger (full : Bool)
  | dailySettle
  | setIncomeFee (pct : ℚ)
  | setOutgoingFee (pct : ℚ)
  | deleteAllCmd
  | unrecognized
deriving DecidableEq

/-- Currency selected by the optional dollar suffix of a deposit or withdraw
command: USD when present, THB otherwise. -/
def ccy (dollar : Bool) : Currency :=
  if dollar then Currency.usd else Currency.thb

/-- The command matching of processAccountingMessage in the live accounting
workflow, with the branch conditions in source order, first match wins, on
the trimmed message: exact 我的ID variants; containment of the add-operator
keywords; containment of the remove-operator keywords; exact operator-list
keywords; the deposit regex; the withdraw regex; exact ledger-query keywords;
exact full-ledger keywords; exact daily-settlement keywords; the income
fee-rate regex; the outgoing fee-rate regex; containment of both 删除 and
账单; otherwise unrecognized. The permission gates that the source
interleaves between these branch groups are applied on top of this in
processMessage, which dispatches on the parsed command in the same order. -/
def parse (raw : List Char) : Command :=
  let msg := trimChars raw
  if msg = "我的ID".data ∨ msg = "我的id".data ∨ msg = "/myid".data then Command.whoami
  else if containsSeq msg "添加权限".data ∨ containsSeq msg "添加操作人".data then
    Command.addOp
  else if containsSeq msg "移除权限".data ∨ containsSeq msg "删除操作人".data then
    Command.removeOp
  else if msg = "操作人列表".data ∨ msg = "查看操作人".data then Command.listOps
  else
    match matchSigned '+' msg with
    | some a => Command.deposit a.1 (ccy a.2)
    | none =>
      match matchSigned '-' msg with
      | some a => Command.withdraw a.1 (ccy a.2)
      | none =>
        if msg = "总账".data ∨ msg = "账单".data ∨ msg = "查询".data then
          Command.showLedger false
        else if msg = "结算".data ∨ msg = "全部".data ∨ msg = "完整账单".data then
          Command.showLedger true
        else if msg = "日结算".data ∨ msg = "今日结算".data then Command.dailySettle
        else
          match matchFeeRate "入款费率".data msg with
          | some q => Command.setIncomeFee q
          | none =>
            match matchFeeRate "下发费率".data msg with
            | some q => Command.setOutgoingFee q
            | none =>
              if containsSeq msg "删除".data ∧ containsSeq msg "账单".data then
                Command.deleteAllCmd
              else Command.unrecognized

/-- The checkUserPermission tool (groupAccountingTools.ts): a user has
permission when some GroupSettings row of the group has the all-users cell
是, or failing that when some Operators row matches the group, the user and
status 正常. -/
def checkUserPermission (settings : List SettingsRow) (operators : List OperatorRow)
    (gid uid : String) : Bool :=
  if settings.any (fun s => s.groupId == gid && s.allUsersCell == "是") then true
  else operators.any (fun o => o.groupId == gid && o.userId == uid && o.status == "正常")

/-- The authorization gate of the live accounting workflow: a Telegram group
admin or creator (the external getChatMember lookup, taken as an input here)
passes outright, anyone else passes exactly when checkUserPermission grants
permission. -/
def authorize (isAdmin : Bool) (settings : List SettingsRow)
    (operators : List OperatorRow) (gid uid : String) : Bool :=
  isAdmin || checkUserPermission settings operators gid uid

/-- Per-message context the workflow step consults besides the text: the
admin-lookup result, the two permission sheets, the replied-to message's
sender and the first text-mention entity (id and display name each). -/
structure Env where
  isAdmin : Bool
  settings : List SettingsRow
  operators : List OperatorRow
  replyTo : Option (String × String)
  mention : Option (String × String)

/-- A tool invocation the workflow step performs against the stores. -/
inductive Action
  | addIncome (gid uid uname : String) (amount : ℚ) (currency : Currency)
  | addOutgoing (gid uid uname : String) (amount : ℚ) (currency : Currency)
  | showBills (gid : String) (showAll : Bool)
  | runDailySettlement (gid : String)
  | setIncomeRate (gid : String) (rate : ℚ)
  | setOutgoingRate (gid : String) (rate : ℚ)
  | deleteAllRecords (gid : String)
  | addOperator (gid targetId targetName : String)
  | removeOperator (gid targetId : String)
  | listOperators (gid : String)
deriving DecidableEq

/-- The kind of response the workflow step returns to the chat. -/
inductive Resp
  | whoamiInfo
  | adminDenied
  | noTarget
  | toolReply
  | permissionDenied
  | rateRangeError
  | silent
deriving DecidableEq

/-- The tool calls and response of the command branches that sit behind the
authorization gate, one per gated command; fee-rate commands with a parsed
percentage outside -100 to 100 answer with the range error and invoke no
tool. -/
def execGated (gid uid uname : String) (cmd : Command) : Resp × List Action :=
  match cmd with
  | Command.deposit q c =>
    (Resp.toolReply, [Action.addIncome gid uid uname q c, Action.showBills gid false])
  | Command.withdraw q c =>
    (Resp.toolReply, [Action.addOutgoing gid uid uname q c, Action.showBills gid false])
  | Command.showLedger full => (Resp.toolReply, [Action.showBills gid full])
  | Command.dailySettle => (Resp.toolReply, [Action.runDailySettlement gid])
  | Command.setIncomeFee q =>
    if q < -100 ∨ 100 < q then (Resp.rateRangeError, [])
    else (Resp.toolReply, [Action.setIncomeRate gid q])
  | Command.setOutgoingFee q =>
    if q < -100 ∨ 100 < q then (Resp.rateRangeError, [])
    else (Resp.toolReply, [Action.setOutgoingRate gid q])
  | Command.deleteAllCmd => (Resp.toolReply, [Action.deleteAllRecords gid])
  | _ => (Resp.silent, [])

/-- The processAccountingMessage step of the live accounting workflow: the
我的ID command answers without any check; the add and remove operator
commands require the admin lookup to succeed and then resolve their target
from the replied-to message, or for adding from a text mention; the
operator-list command runs for anyone; every other command runs only when
the actor is an admin or checkUserPermission grants permission, and an actor
failing that gate receives the permission denial and no tool is invoked. -/
def processMessage (env : Env) (gid uid uname : String) (raw : List Char) :
    Resp × List Action :=
  match parse raw with
  | Command.whoami => (Resp.whoamiInfo, [])
  | Command.addOp =>
    if env.isAdmin then
      match env.replyTo with
      | some t => (Resp.toolReply, [Action.addOperator gid t.1 t.2])
      | none =>
        match env.mention with
        | some t => (Resp.toolReply, [Action.addOperator gid t.1 t.2])
        | none => (Resp.noTarget, [])
    else (Resp.adminDenied, [])
  | Command.removeOp =>
    if env.isAdmin then
      match env.replyTo with
      | some t => (Resp.toolReply, [Action.removeOperator gid t.1])
      | none => (Resp.noTarget, [])
    else (Resp.adminDenied, [])
  | Command.listOps => (Resp.toolReply, [Action.listOperators gid])
  | cmd =>
    if authorize env.isAdmin env.settings env.operators gid uid then
      execGated gid uid uname cmd
    else (Resp.permissionDenied, [])

/-- The row the addIncomeRecord tool appends to the Deposits sheet (and
addOutgoingRecord to the Withdrawals sheet): status 正常, amount as passed;
the id, timestamp and message id are runtime values taken as parameters. -/
def mkIncomeRow (rid ts gid uid uname : String) (amount : ℚ) (c : Currency)
    (msgId : String) : LedgerRow :=
  { id := rid
    timestamp := ts
    groupId := gid
    userId := uid
    username := uname
    amount := amount
    currency := c
    status := "正常"
    sourceMessageId := msgId }

/-- The setIncomeFeeRate tool (rateTools): overwrite column C of the first
GroupSettings row of the group, or, when the group has no row, append a fresh
row holding the rate and the defaults (exchange rate 35, outgoing rate 0,
cutoff 6, all-users 否, empty refresh time). -/
def setIncomeFeeRateStore : List SettingsRow → String → ℚ → List SettingsRow
  | [], gid, rate =>
    [{ groupId := gid
       exchangeRate := 35
       incomeFeeRate := rate
       outgoingFeeRate := 0
       cutoffHour := 6
       allUsersCell := "否"
       lastRefreshTime := ""
       language := "中文" }]
  | s :: rest, gid, rate =>
    if s.groupId == gid then { s with incomeFeeRate := rate } :: rest
    else s :: setIncomeFeeRateStore rest gid rate

/-- JS string less-than (code-unit lexicographic comparison), as the old
showAllBills applies it to timestamp strings. -/
def lexLt : List Char → List Char → Bool
  | _, [] => false
  | [], _ :: _ => true
  | a :: as, b :: bs => if a < b then true else if b < a then false else lexLt as bs

/-- timestamp < lastRefreshTime on strings. -/
def strLt (a b : String) : Bool :=
  lexLt a.data b.data

/-- Inclusion test of the record loops of the old showAllBills
(src/mastra/tools/queryTools.ts): the row belongs to the group with status
正常, and it is not skipped by the cutoff filter, which skips exactly when a
last refresh time is set and the timestamp is strictly below it. -/
def cutoffIncluded (gid lastRefresh : String) (r : LedgerRow) : Bool :=
  r.groupId == gid && r.status == "正常" &&
    !(lastRefresh != "" && strLt r.timestamp lastRefresh)

/-- The line items of the old showAllBills: the rows surviving the group,
status and cutoff filters, in sheet order. -/
def windowRecords (rows : List LedgerRow) (gid lastRefresh : String) : List LedgerRow :=
  rows.filter (cutoffIncluded gid lastRefresh)

/-- The gross total of the old showAllBills over a set of included rows: THB
amounts plus USD amounts converted at the exchange rate. -/
def currencyTotal (rows : List LedgerRow) (exchangeRate : ℚ) : ℚ :=
  rowsSum (rows.filter (fun r => r.currency == Currency.thb))
    + rowsSum (rows.filter (fun r => !(r.currency == Currency.thb))) * exchangeRate

/-- Gross total of the old showAllBills over the cutoff window. -/
def windowTotal (rows : List LedgerRow) (gid lastRefresh : String)
    (exchangeRate : ℚ) : ℚ :=
  currencyTotal (windowRecords rows gid lastRefresh) exchangeRate

/-- Settings lookup of the old showAllBills: exchange rate, income fee rate,
outgoing fee rate and last refresh time of the first matching GroupSettings
row, with the defaults 35, 5, 0 and the empty string for a group with no
row. The time-driven advance of the last refresh cell (a wall-clock side
effect) is not modelled; the filter below takes the cell's value at filter
time. -/
def lookupQuerySettings (settings : List SettingsRow) (gid : String) :
    ℚ × ℚ × ℚ × String :=
  match settings.find? (fun s => s.groupId == gid) with
  | some s => (s.exchangeRate, s.incomeFeeRate, s.outgoingFeeRate, s.lastRefreshTime)
  | none => (35, 5, 0, "")

/-- JS division embedded on rationals: a finite quotient when the divisor is
nonzero, and none for the non-finite value (Infinity or NaN) JS produces when
dividing by zero. -/
def jsDiv (a b : ℚ) : Option ℚ :=
  if b = 0 then none else some (a / b)

/-- The figures the old showAllBills computes and renders: the report always
carries success true unless an I/O exception was thrown (impossible in this
pure model); the per-record USDT columns and the USDT balance are divisions
by the exchange rate. -/
structure QueryReport where
  success : Bool
  totalIncome : ℚ
  totalOutgoing : ℚ
  actualIncome : ℚ
  actualOutgoing : ℚ
  balance : ℚ
  incomeUsdt : List (Option ℚ)
  outgoingUsdt : List (Option ℚ)
  balanceUsdt : Option ℚ
deriving DecidableEq

/-- The pure computation of the old showAllBills
(src/mastra/tools/queryTools.ts): cutoff-window filtering of both sheets,
currency-converted gross totals, fee application, and the USDT-equivalent
columns obtained by dividing by the exchange rate. No branch inspects
whether the exchange rate is zero; the divisions are performed regardless
and the report is returned with success true. -/
def queryShowAllBills (settings : List SettingsRow) (deps wds : List LedgerRow)
    (gid : String) : QueryReport :=
  let q := lookupQuerySettings settings gid
  let er := q.1
  let inRate := q.2.1
  let outRate := q.2.2.1
  let lr := q.2.2.2
  let incRows := windowRecords deps gid lr
  let outRows := windowRecords wds gid lr
  let totalIncome := currencyTotal incRows er
  let totalOutgoing := currencyTotal outRows er
  let actualIncome := totalIncome * (1 - inRate / 100)
  let actualOutgoing := totalOutgoing * (1 + outRate / 100)
  let balance := actualIncome - actualOutgoing
  { success := true
    totalIncome := totalIncome
    totalOutgoing := totalOutgoing
    actualIncome := actualIncome
    actualOutgoing := actualOutgoing
    balance := balance
    incomeUsdt := incRows.map (fun r => jsDiv r.amount er)
    outgoingUsdt := outRows.map (fun r => jsDiv r.amount er)
    balanceUsdt := jsDiv balance er }

/-- The characters of an amount capture of the deposit and withdraw regex:
the integer digits, an optional fractional group, an optional dollar sign.
Every string matching the amount part of the regex has this shape. -/
def amountChars (d1 d2 : List Char) (dollar : Bool) : List Char :=
  d1 ++ (if d2.isEmpty then [] else '.' :: d2) ++ (if dollar then ['$'] else [])

/-- A whole message matching the deposit regex (sign plus) or the withdraw
regex (sign minus). -/
def signedMsg (sign : Char) (d1 d2 : List Char) (dollar : Bool) : List Char :=
  sign :: amountChars d1 d2 dollar

/-- A whole message matching a fee-rate regex: the keyword literal, a run of
spaces, an optional minus sign and the decimal digits. -/
def feeMsg (lit : List Char) (nsp : Nat) (neg : Bool) (d1 d2 : List Char) : List Char :=
  lit ++ List.replicate nsp ' ' ++ (if neg then ['-'] else []) ++ amountChars d1 d2 false

/-- The parseFloat value of an optionally negated decimal capture. -/
def signedVal (neg : Bool) (d1 d2 : List Char) : ℚ :=
  if neg then -(decValue d1 d2) else decValue d1 d2

/-- Characters that can occur in a deposit, withdraw or fee-rate command. -/
def plainChar (c : Char) : Bool :=
  c.isDigit || c = '+' || c = '-' || c = '.' || c = '$' || c = ' '
    || c = '入' || c = '款' || c = '费' || c = '率' || c = '下' || c = '发'

theorem plain_ne (c k : Char) (hc : plainChar c = true) (hk : plainChar k = false) :
    c ≠ k := by
  intro h
  subst h
  rw [hc] at hk
  cases hk

theorem mem_of_head?_char (l : List Char) (c : Char) (h : l.head? = some c) : c ∈ l := by
  cases l with
  | nil => cases h
  | cons a t =>
    injection h with h
    subst h
    exact List.mem_cons_self a t

theorem ne_lit_of_head (msg lit : List Char) (c k : Char)
    (hhead : msg.head? = some c) (hc : plainChar c = true)
    (hlit : lit.head? = some k) (hk : plainChar k = false) : msg ≠ lit := by
  intro he
  subst he
  rw [hhead] at hlit
  injection hlit with h
  subst h
  rw [hc] at hk
  cases hk

theorem containsSeq_head_mem (l : List Char) (p : Char) (ps : List Char)
    (h : containsSeq l (p :: ps) = true) : p ∈ l := by
  induction l with
  | nil => rw [containsSeq] at h; cases h
  | cons a t ih =>
    rw [containsSeq] at h
    rcases Bool.or_eq_true_iff.mp h with h1 | h1
    · rw [startsWithSeq, Bool.and_eq_true] at h1
      exact (beq_iff_eq.mp h1.1) ▸ List.mem_cons_self a t
    · exact List.mem_cons_of_mem a (ih h1)

theorem containsSeq_eq_false (l : List Char) (p : Char) (ps : List Char)
    (h : p ∉ l) : containsSeq l (p :: ps) = false := by
  cases hv : containsSeq l (p :: ps) with
  | false => rfl
  | true => exact absurd (containsSeq_head_mem l p ps hv) h

theorem not_mem_of_plain (l : List Char) (p : Char)
    (hl : ∀ c ∈ l, plainChar c = true) (hp : plainChar p = false) : p ∉ l := by
  intro hmem
  rw [hl p hmem] at hp
  cases hp

theorem not_ws_of_digit (c : Char) (h : c.isDigit = true) : isWs c = false := by
  cases hv : isWs c with
  | false => rfl
  | true =>
    rw [isWs] at hv
    simp only [Bool.or_eq_true, decide_eq_true_eq] at hv
    rcases hv with ((h1 | h1) | h1) | h1 <;> subst h1 <;> exact absurd h (by decide)

theorem dropWhile_eq_self_of_head (p : Char → Bool) (l : List Char)
    (h : ∀ c, l.head? = some c → p c = false) : l.dropWhile p = l := by
  cases l with
  | nil => rfl
  | cons a t =>
    rw [List.dropWhile_cons, h a rfl]
    simp

theorem trimChars_eq_self_hl (l : List Char)
    (h1 : ∀ c, l.head? = some c → isWs c = false)
    (h2 : ∀ c, l.getLast? = some c → isWs c = false) : trimChars l = l := by
  unfold trimChars
  rw [dropWhile_eq_self_of_head _ _ h1]
  rw [dropWhile_eq_self_of_head _ l.reverse ?hrev]
  · exact List.reverse_reverse l
  case hrev =>
    intro c hc
    rw [List.head?_reverse] at hc
    exact h2 c hc

theorem trimChars_eq_self_of_all (l : List Char)
    (h : ∀ c ∈ l, isWs c = false) : trimChars l = l := by
  refine trimChars_eq_self_hl l ?_ ?_
  · intro c hc
    exact h c (mem_of_head?_char l c hc)
  · intro c hc
    exact h c (List.mem_of_getLast?_eq_some hc)

theorem takeDigits_append (d r : List Char)
    (hd : ∀ c ∈ d, c.isDigit = true)
    (hr : ∀ c, r.head? = some c → c.isDigit = false) :
    takeDigits (d ++ r) = (d, r) := by
  induction d with
  | nil =>
    cases r with
    | nil => rfl
    | cons a t =>
      rw [List.nil_append, takeDigits, hr a rfl]
      simp
  | cons c d ih =>
    have hc : c.isDigit = true := hd c (List.mem_cons_self c d)
    rw [List.cons_append, takeDigits, hc]
    simp only [if_true]
    rw [ih (fun x hx => hd x (List.mem_cons_of_mem c hx))]

theorem stripLit_append (p l : List Char) : stripLit p (p ++ l) = some l := by
  induction p with
  | nil => rfl
  | cons c p ih =>
    rw [List.cons_append, stripLit, if_pos rfl]
    exact ih

theorem dropWhile_ws_replicate (n : Nat) (l : List Char) :
    (List.replicate n ' ' ++ l).dropWhile isWs = l.dropWhile isWs := by
  induction n with
  | zero => rw [List.replicate_zero, List.nil_append]
  | succ n ih =>
    rw [List.replicate_succ, List.cons_append, List.dropWhile_cons]
    rw [show isWs ' ' = true from rfl]
    simpa using ih

theorem getLast?_amountChars_digit (d1 d2 : List Char) (h1 : d1 ≠ [])
    (hd1 : ∀ c ∈ d1, c.isDigit = true) (hd2 : ∀ c ∈ d2, c.isDigit = true) :
    ∀ c, (amountChars d1 d2 false).getLast? = some c → c.isDigit = true := by
  intro c hc
  cases d2 with
  | nil =>
    have ha : amountChars d1 [] false = d1 := by
      show d1 ++ _ ++ _ = d1
      simp
    rw [ha] at hc
    exact hd1 c (List.mem_of_getLast?_eq_some hc)
  | cons e es =>
    have ha : amountChars d1 (e :: es) false = d1 ++ ('.' :: e :: es) := by
      show d1 ++ _ ++ _ = _
      simp
    rw [ha] at hc
    rw [List.getLast?_append_of_ne_nil d1 (by simp)] at hc
    rw [show ('.' :: e :: es) = ['.'] ++ (e :: es) from rfl,
      List.getLast?_append_of_ne_nil ['.'] (by simp)] at hc
    exact hd2 c (List.mem_of_getLast?_eq_some hc)

theorem matchAmountDollar_eval (d1 d2 : List Char) (dollar : Bool) (h1 : d1 ≠ [])
    (hd1 : ∀ c ∈ d1, c.isDigit = true) (hd2 : ∀ c ∈ d2, c.isDigit = true) :
    matchAmountDollar (amountChars d1 d2 dollar) = some (decValue d1 d2, dollar) := by
  obtain ⟨a, d1t, rfl⟩ := List.exists_cons_of_ne_nil h1
  have hnil : ∀ c, ([] : List Char).head? = some c → c.isDigit = false := by
    intro c hc
    cases hc
  cases d2 with
  | nil =>
    cases dollar with
    | false =>
      have ht : takeDigits (a :: d1t) = (a :: d1t, []) := by
        have h := takeDigits_append (a :: d1t) [] hd1 hnil
        simpa using h
      simp [amountChars, matchAmountDollar, ht]
    | true =>
      have ht : takeDigits (a :: (d1t ++ ['$'])) = (a :: d1t, ['$']) := by
        have h := takeDigits_append (a :: d1t) ['$'] hd1 (by
          intro c hc
          injection hc with hc
          subst hc
          rfl)
        simpa using h
      simp [amountChars, matchAmountDollar, ht]
  | cons e es =>
    have ht2 : takeDigits (e :: es) = (e :: es, []) := by
      have h := takeDigits_append (e :: es) [] hd2 hnil
      simpa using h
    cases dollar with
    | false =>
      have ht : takeDigits (a :: (d1t ++ '.' :: e :: es)) = (a :: d1t, '.' :: e :: es) := by
        have h := takeDigits_append (a :: d1t) ('.' :: e :: es) hd1 (by
          intro c hc
          injection hc with hc
          subst hc
          rfl)
        simpa using h
      simp [amountChars, matchAmountDollar, ht, ht2, dollarSuffix]
    | true =>
      have ht : takeDigits (a :: (d1t ++ '.' :: (e :: (es ++ ['$']))))
          = (a :: d1t, '.' :: (e :: (es ++ ['$']))) := by
        have h := takeDigits_append (a :: d1t) ('.' :: (e :: es ++ ['$'])) hd1 (by
          intro c hc
          injection hc with hc
          subst hc
          rfl)
        simpa using h
      have ht3 : takeDigits (e :: (es ++ ['$'])) = (e :: es, ['$']) := by
        have h := takeDigits_append (e :: es) ['$'] hd2 (by
          intro c hc
          injection hc with hc
          subst hc
          rfl)
        simpa using h
      simp [amountChars, matchAmountDollar, ht, ht3, dollarSuffix]

theorem matchNumber_eval (d1 d2 : List Char) (h1 : d1 ≠ [])
    (hd1 : ∀ c ∈ d1, c.isDigit = true) (hd2 : ∀ c ∈ d2, c.isDigit = true) :
    matchNumber (amountChars d1 d2 false) = some (decValue d1 d2) := by
  obtain ⟨a, d1t, rfl⟩ := List.exists_cons_of_ne_nil h1
  have hnil : ∀ c, ([] : List Char).head? = some c → c.isDigit = false := by
    intro c hc
    cases hc
  cases d2 with
  | nil =>
    have ht : takeDigits (a :: d1t) = (a :: d1t, []) := by
      have h := takeDigits_append (a :: d1t) [] hd1 hnil
      simpa using h
    simp [amountChars, matchNumber, ht]
  | cons e es =>
    have ht : takeDigits (a :: (d1t ++ '.' :: e :: es)) = (a :: d1t, '.' :: e :: es) := by
      have h := takeDigits_append (a :: d1t) ('.' :: e :: es) hd1 (by
        intro c hc
        injection hc with hc
        subst hc
        rfl)
      simpa using h
    have ht2 : takeDigits (e :: es) = (e :: es, []) := by
      have h := takeDigits_append (e :: es) [] hd2 hnil
      simpa using h
    simp [amountChars, matchNumber, ht, ht2]

theorem mem_amountChars (d1 d2 : List Char) (dollar : Bool) (c : Char)
    (hc : c ∈ amountChars d1 d2 dollar) :
    c ∈ d1 ∨ c = '.' ∨ c ∈ d2 ∨ c = '$' := by
  unfold amountChars at hc
  rcases List.mem_append.mp hc with h | h
  · rcases List.mem_append.mp h with h | h
    · exact Or.inl h
    · by_cases h2 : d2.isEmpty = true
      · rw [if_pos h2] at h
        cases h
      · rw [if_neg h2] at h
        rcases List.mem_cons.mp h with h | h
        · exact Or.inr (Or.inl h)
        · exact Or.inr (Or.inr (Or.inl h))
  · cases dollar with
    | false => cases h
    | true =>
      rcases List.mem_cons.mp h with h | h
      · exact Or.inr (Or.inr (Or.inr h))
      · cases h

theorem plain_of_digit (c : Char) (h : c.isDigit = true) : plainChar c = true := by
  rw [plainChar, h]
  rfl

theorem plain_signedMsg (sign : Char) (hs : plainChar sign = true) (d1 d2 : List Char)
    (dollar : Bool) (hd1 : ∀ c ∈ d1, c.isDigit = true)
    (hd2 : ∀ c ∈ d2, c.isDigit = true) :
    ∀ c ∈ signedMsg sign d1 d2 dollar, plainChar c = true := by
  intro c hc
  rcases List.mem_cons.mp hc with h | h
  · subst h
    exact hs
  · rcases mem_amountChars d1 d2 dollar c h with h | h | h | h
    · exact plain_of_digit c (hd1 c h)
    · subst h
      decide
    · exact plain_of_digit c (hd2 c h)
    · subst h
      decide

theorem ws_false_signedMsg (sign : Char) (hs : isWs sign = false) (d1 d2 : List Char)
    (dollar : Bool) (hd1 : ∀ c ∈ d1, c.isDigit = true)
    (hd2 : ∀ c ∈ d2, c.isDigit = true) :
    ∀ c ∈ signedMsg sign d1 d2 dollar, isWs c = false := by
  intro c hc
  rcases List.mem_cons.mp hc with h | h
  · subst h
    exact hs
  · rcases mem_amountChars d1 d2 dollar c h with h | h | h | h
    · exact not_ws_of_digit c (hd1 c h)
    · subst h
      decide
    · exact not_ws_of_digit c (hd2 c h)
    · subst h
      decide

theorem not_contains_cond (msg pat : List Char) (k : Char) (ks : List Char)
    (hpat : pat = k :: ks)
    (hplain : ∀ c ∈ msg, plainChar c = true) (hk : plainChar k = false) :
    ¬(containsSeq msg pat = true) := by
  subst hpat
  rw [containsSeq_eq_false msg k ks (not_mem_of_plain msg k hplain hk)]
  simp

theorem matchSigned_none_head (sign : Char) (l : List Char) (c : Char)
    (hh : l.head? = some c) (hne : c ≠ sign) : matchSigned sign l = none := by
  cases l with
  | nil => cases hh
  | cons a t =>
    injection hh with hh
    subst hh
    rw [matchSigned, if_neg hne]

theorem stripLit_none_head (p : Char) (ps l : List Char) (c : Char)
    (hh : l.head? = some c) (hne : c ≠ p) : stripLit (p :: ps) l = none := by
  cases l with
  | nil => cases hh
  | cons a t =>
    injection hh with hh
    subst hh
    rw [stripLit, if_neg hne]

/-- On a message built only from command characters (sign, digits, dot,
dollar, space and the fee keyword characters) every keyword branch of the
dispatch fails, so parse reduces to the four regex matchers in source
order. -/
theorem parse_plain (msg : List Char) (c : Char)
    (hplain : ∀ x ∈ msg, plainChar x = true)
    (htrim : trimChars msg = msg)
    (hhead : msg.head? = some c) (hc : plainChar c = true) :
    parse msg =
      (match matchSigned '+' msg with
      | some a => Command.deposit a.1 (ccy a.2)
      | none =>
        match matchSigned '-' msg with
        | some a => Command.withdraw a.1 (ccy a.2)
        | none =>
          match matchFeeRate "入款费率".data msg with
          | some q => Command.setIncomeFee q
          | none =>
            match matchFeeRate "下发费率".data msg with
            | some q => Command.setOutgoingFee q
            | none => Command.unrecognized) := by
  simp only [parse]
  rw [htrim]
  rw [if_neg (by
    rintro (h | h | h)
    · exact ne_lit_of_head msg "我的ID".data c '我' hhead hc (by decide) (by decide) h
    · exact ne_lit_of_head msg "我的id".data c '我' hhead hc (by decide) (by decide) h
    · exact ne_lit_of_head msg "/myid".data c '/' hhead hc (by decide) (by decide) h)]
  rw [if_neg (by
    rintro (h | h)
    · exact not_contains_cond msg _ '添' "加权限".data rfl hplain (by decide) h
    · exact not_contains_cond msg _ '添' "加操作人".data rfl hplain (by decide) h)]
  rw [if_neg (by
    rintro (h | h)
    · exact not_contains_cond msg _ '移' "除权限".data rfl hplain (by decide) h
    · exact not_contains_cond msg _ '删' "除操作人".data rfl hplain (by decide) h)]
  rw [if_neg (by
    rintro (h | h)
    · exact ne_lit_of_head msg "操作人列表".data c '操' hhead hc (by decide) (by decide) h
    · exact ne_lit_of_head msg "查看操作人".data c '查' hhead hc (by decide) (by decide) h)]
  rw [if_neg (by
    rintro (h | h | h)
    · exact ne_lit_of_head msg "总账".data c '总' hhead hc (by decide) (by decide) h
    · exact ne_lit_of_head msg "账单".data c '账' hhead hc (by decide) (by decide) h
    · exact ne_lit_of_head msg "查询".data c '查' hhead hc (by decide) (by decide) h)]
  rw [if_neg (by
    rintro (h | h | h)
    · exact ne_lit_of_head msg "结算".data c '结' hhead hc (by decide) (by decide) h
    · exact ne_lit_of_head msg "全部".data c '全' hhead hc (by decide) (by decide) h
    · exact ne_lit_of_head msg "完整账单".data c '完' hhead hc (by decide) (by decide) h)]
  rw [if_neg (by
    rintro (h | h)
    · exact ne_lit_of_head msg "日结算".data c '日' hhead hc (by decide) (by decide) h
    · exact ne_lit_of_head msg "今日结算".data c '今' hhead hc (by decide) (by decide) h)]
  rw [if_neg (by
    rintro ⟨h, h2⟩
    exact not_contains_cond msg _ '删' "除".data rfl hplain (by decide) h)]

theorem parse_signedMsg_plus (d1 d2 : List Char) (dollar : Bool) (h1 : d1 ≠ [])
    (hd1 : ∀ c ∈ d1, c.isDigit = true) (hd2 : ∀ c ∈ d2, c.isDigit = true) :
    parse (signedMsg '+' d1 d2 dollar)
      = Command.deposit (decValue d1 d2) (ccy dollar) := by
  have hplain := plain_signedMsg '+' (by decide) d1 d2 dollar hd1 hd2
  have htrim :=
    trimChars_eq_self_of_all _ (ws_false_signedMsg '+' (by decide) d1 d2 dollar hd1 hd2)
  rw [parse_plain _ '+' hplain htrim rfl (by decide)]
  show (match matchSigned '+' ('+' :: amountChars d1 d2 dollar) with
    | some a => Command.deposit a.1 (ccy a.2)
    | none => _) = _
  rw [matchSigned, if_pos rfl, matchAmountDollar_eval d1 d2 dollar h1 hd1 hd2]

theorem parse_signedMsg_minus (d1 d2 : List Char) (dollar : Bool) (h1 : d1 ≠ [])
    (hd1 : ∀ c ∈ d1, c.isDigit = true) (hd2 : ∀ c ∈ d2, c.isDigit = true) :
    parse (signedMsg '-' d1 d2 dollar)
      = Command.withdraw (decValue d1 d2) (ccy dollar) := by
  have hplain := plain_signedMsg '-' (by decide) d1 d2 dollar hd1 hd2
  have htrim :=
    trimChars_eq_self_of_all _ (ws_false_signedMsg '-' (by decide) d1 d2 dollar hd1 hd2)
  rw [parse_plain _ '-' hplain htrim rfl (by decide)]
  rw [matchSigned_none_head '+' (signedMsg '-' d1 d2 dollar) '-' rfl (by decide)]
  show (match matchSigned '-' ('-' :: amountChars d1 d2 dollar) with
    | some a => Command.withdraw a.1 (ccy a.2)
    | none => _) = _
  rw [matchSigned, if_pos rfl, matchAmountDollar_eval d1 d2 dollar h1 hd1 hd2]

theorem amountChars_ne_nil (d1 d2 : List Char) (h1 : d1 ≠ []) :
    amountChars d1 d2 false ≠ [] := by
  unfold amountChars
  simp [List.append_eq_nil, h1]

theorem amountChars_head_digit (d1 d2 : List Char) (h1 : d1 ≠ [])
    (hd1 : ∀ c ∈ d1, c.isDigit = true) :
    ∀ c, (amountChars d1 d2 false).head? = some c → c.isDigit = true := by
  obtain ⟨a, t, rfl⟩ := List.exists_cons_of_ne_nil h1
  intro c hc
  rw [show (amountChars (a :: t) d2 false).head? = some a from rfl] at hc
  injection hc with hc
  subst hc
  exact hd1 a (List.mem_cons_self a t)

theorem matchFee_tail_cons (a : Char) (t : List Char) :
    (match (a :: t : List Char) with
      | [] => none
      | c :: r => if c = '-' then (matchNumber r).map (fun q => -q) else matchNumber (c :: r))
      = if a = '-' then (matchNumber t).map (fun q => -q) else matchNumber (a :: t) := rfl

theorem matchFeeRate_feeMsg (lit : List Char) (nsp : Nat) (neg : Bool)
    (d1 d2 : List Char) (h1 : d1 ≠ [])
    (hd1 : ∀ c ∈ d1, c.isDigit = true) (hd2 : ∀ c ∈ d2, c.isDigit = true) :
    matchFeeRate lit (feeMsg lit nsp neg d1 d2) = some (signedVal neg d1 d2) := by
  unfold feeMsg matchFeeRate
  rw [List.append_assoc, List.append_assoc, stripLit_append]
  show (match (List.replicate nsp ' '
      ++ ((if neg = true then ['-'] else []) ++ amountChars d1 d2 false)).dropWhile isWs with
    | [] => none
    | c :: r => if c = '-' then (matchNumber r).map (fun q => -q) else matchNumber (c :: r))
    = some (signedVal neg d1 d2)
  rw [dropWhile_ws_replicate]
  cases neg with
  | true =>
    have hdw : ((if (true = true) then ['-'] else ([] : List Char))
        ++ amountChars d1 d2 false).dropWhile isWs = '-' :: amountChars d1 d2 false := by
      show (('-' :: amountChars d1 d2 false)).dropWhile isWs = _
      rw [List.dropWhile_cons, show isWs '-' = false from rfl]
      simp
    rw [hdw]
    show (if ('-' = '-') then (matchNumber (amountChars d1 d2 false)).map (fun q => -q)
        else matchNumber ('-' :: amountChars d1 d2 false)) = some (signedVal true d1 d2)
    rw [if_pos rfl, matchNumber_eval d1 d2 h1 hd1 hd2]
    rfl
  | false =>
    obtain ⟨a, d1t, rfl⟩ := List.exists_cons_of_ne_nil h1
    have hdw : ((if (false = true) then ['-'] else ([] : List Char))
        ++ amountChars (a :: d1t) d2 false).dropWhile isWs
        = amountChars (a :: d1t) d2 false := by
      show (amountChars (a :: d1t) d2 false).dropWhile isWs = _
      exact dropWhile_eq_self_of_head _ _ (fun c hc =>
        not_ws_of_digit c (amountChars_head_digit (a :: d1t) d2 (by simp) hd1 c hc))
    rw [hdw]
    have hA : amountChars (a :: d1t) d2 false
        = a :: ((d1t ++ (if d2.isEmpty = true then [] else '.' :: d2))
          ++ (if (false = true) then ['$'] else [])) := rfl
    rw [hA, matchFee_tail_cons]
    have ha : a.isDigit = true := hd1 a (List.mem_cons_self a d1t)
    have hne2 : a ≠ '-' := by
      intro h
      subst h
      exact absurd ha (by decide)
    rw [if_neg hne2, ← hA, matchNumber_eval (a :: d1t) d2 (by simp) hd1 hd2]
    rfl

theorem feeMsg_head (lit : List Char) (k : Char) (lt : List Char) (hlit : lit = k :: lt)
    (nsp : Nat) (neg : Bool) (d1 d2 : List Char) :
    (feeMsg lit nsp neg d1 d2).head? = some k := by
  subst hlit
  rfl

theorem plain_feeMsg (lit : List Char) (hlit : ∀ c ∈ lit, plainChar c = true)
    (nsp : Nat) (neg : Bool) (d1 d2 : List Char)
    (hd1 : ∀ c ∈ d1, c.isDigit = true) (hd2 : ∀ c ∈ d2, c.isDigit = true) :
    ∀ c ∈ feeMsg lit nsp neg d1 d2, plainChar c = true := by
  intro c hc
  unfold feeMsg at hc
  rcases List.mem_append.mp hc with h | h
  · rcases List.mem_append.mp h with h | h
    · rcases List.mem_append.mp h with h | h
      · exact hlit c h
      · rw [List.mem_replicate] at h
        rw [h.2]
        decide
    · cases neg with
      | false => cases h
      | true =>
        rcases List.mem_cons.mp h with h | h
        · subst h
          decide
        · cases h
  · rcases mem_amountChars d1 d2 false c h with h | h | h | h
    · exact plain_of_digit c (hd1 c h)
    · subst h
      decide
    · exact plain_of_digit c (hd2 c h)
    · subst h
      decide

theorem trim_feeMsg (lit : List Char) (k : Char) (lt : List Char) (hlit : lit = k :: lt)
    (hk : isWs k = false) (nsp : Nat) (neg : Bool) (d1 d2 : List Char) (h1 : d1 ≠ [])
    (hd1 : ∀ c ∈ d1, c.isDigit = true) (hd2 : ∀ c ∈ d2, c.isDigit = true) :
    trimChars (feeMsg lit nsp neg d1 d2) = feeMsg lit nsp neg d1 d2 := by
  apply trimChars_eq_self_hl
  · intro c hc
    rw [feeMsg_head lit k lt hlit] at hc
    injection hc with hc
    subst hc
    exact hk
  · intro c hc
    unfold feeMsg at hc
    rw [List.getLast?_append_of_ne_nil _ (amountChars_ne_nil d1 d2 h1)] at hc
    exact not_ws_of_digit c (getLast?_amountChars_digit d1 d2 h1 hd1 hd2 c hc)

theorem parse_feeMsg_income (nsp : Nat) (neg : Bool) (d1 d2 : List Char) (h1 : d1 ≠ [])
    (hd1 : ∀ c ∈ d1, c.isDigit = true) (hd2 : ∀ c ∈ d2, c.isDigit = true) :
    parse (feeMsg "入款费率".data nsp neg d1 d2)
      = Command.setIncomeFee (signedVal neg d1 d2) := by
  have hplain := plain_feeMsg "入款费率".data (by decide) nsp neg d1 d2 hd1 hd2
  have hhead := feeMsg_head "入款费率".data '入' "款费率".data rfl nsp neg d1 d2
  have htrim := trim_feeMsg "入款费率".data '入' "款费率".data rfl (by decide)
    nsp neg d1 d2 h1 hd1 hd2
  rw [parse_plain _ '入' hplain htrim hhead (by decide)]
  rw [matchSigned_none_head '+' _ '入' hhead (by decide)]
  rw [matchSigned_none_head '-' _ '入' hhead (by decide)]
  rw [matchFeeRate_feeMsg "入款费率".data nsp neg d1 d2 h1 hd1 hd2]

theorem parse_feeMsg_outgoing (nsp : Nat) (neg : Bool) (d1 d2 : List Char) (h1 : d1 ≠ [])
    (hd1 : ∀ c ∈ d1, c.isDigit = true) (hd2 : ∀ c ∈ d2, c.isDigit = true) :
    parse (feeMsg "下发费率".data nsp neg d1 d2)
      = Command.setOutgoingFee (signedVal neg d1 d2) := by
  have hplain := plain_feeMsg "下发费率".data (by decide) nsp neg d1 d2 hd1 hd2
  have hhead := feeMsg_head "下发费率".data '下' "发费率".data rfl nsp neg d1 d2
  have htrim := trim_feeMsg "下发费率".data '下' "发费率".data rfl (by decide)
    nsp neg d1 d2 h1 hd1 hd2
  rw [parse_plain _ '下' hplain htrim hhead (by decide)]
  rw [matchSigned_none_head '+' _ '下' hhead (by decide)]
  rw [matchSigned_none_head '-' _ '下' hhead (by decide)]
  rw [show matchFeeRate "入款费率".data (feeMsg "下发费率".data nsp neg d1 d2) = none from by
    unfold matchFeeRate
    rw [show ("入款费率".data : List Char) = '入' :: "款费率".data from rfl]
    rw [stripLit_none_head '入' "款费率".data _ '下' hhead (by decide)]]
  rw [matchFeeRate_feeMsg "下发费率".data nsp neg d1 d2 h1 hd1 hd2]

theorem lookup_setIncomeFeeRateStore (settings : List SettingsRow) (gid : String) (r : ℚ) :
    (lookupFeeRates (setIncomeFeeRateStore settings gid r) gid).1 = r := by
  induction settings with
  | nil => simp [setIncomeFeeRateStore, lookupFeeRates, List.find?]
  | cons s t ih =>
    cases h : s.groupId == gid with
    | false =>
      rw [setIncomeFeeRateStore, if_neg (by simp [h])]
      simpa [lookupFeeRates, List.find?, h] using ih
    | true =>
      rw [setIncomeFeeRateStore, if_pos (by simp [h])]
      simp [lookupFeeRates, List.find?, h]

/-- A fixed admin context used by concrete instances: the admin lookup
succeeded, both sheets empty, no reply and no mention. -/
def adminTestEnv : Env :=
  { isAdmin := true, settings := [], operators := [], replyTo := none, mention := none }

/-- A fixed non-admin, non-operator context used by concrete instances. -/
def noPermTestEnv : Env :=
  { isAdmin := false, settings := [], operators := [], replyTo := none, mention := none }

theorem processMessage_income_fee (env : Env) (gid uid uname : String) (raw : List Char)
    (q : ℚ) (hparse : parse raw = Command.setIncomeFee q) (hadmin : env.isAdmin = true) :
    processMessage env gid uid uname raw
      = if q < -100 ∨ 100 < q then (Resp.rateRangeError, [])
        else (Resp.toolReply, [Action.setIncomeRate gid q]) := by
  simp only [processMessage, hparse, authorize, hadmin, Bool.true_or, if_true, execGated]

theorem processMessage_outgoing_fee (env : Env) (gid uid uname : String) (raw : List Char)
    (q : ℚ) (hparse : parse raw = Command.setOutgoingFee q) (hadmin : env.isAdmin = true) :
    processMessage env gid uid uname raw
      = if q < -100 ∨ 100 < q then (Resp.rateRangeError, [])
        else (Resp.toolReply, [Action.setOutgoingRate gid q]) := by
  simp only [processMessage, hparse, authorize, hadmin, Bool.true_or, if_true, execGated]

/-- C3: the permission resolver of the live workflow authorizes a Telegram
group admin or creator unconditionally; a non-admin who is not an active
operator of the group is denied while no settings row of the group has the
all-users cell set; and the same non-admin, non-operator actor is authorized
once a settings row of the group carries the all-users cell 是. -/
theorem C3_permission_resolver (settings : List SettingsRow)
    (operators : List OperatorRow) (gid uid : String) :
    authorize true settings operators gid uid = true
    ∧ ((∀ s ∈ settings, s.groupId = gid → s.allUsersCell ≠ "是") →
        (∀ o ∈ operators, ¬(o.groupId = gid ∧ o.userId = uid ∧ o.status = "正常")) →
        authorize false settings operators gid uid = false)
    ∧ ((∃ s ∈ settings, s.groupId = gid ∧ s.allUsersCell = "是") →
        authorize false settings operators gid uid = true) := by
  refine ⟨rfl, ?_, ?_⟩
  · intro hs ho
    have h1 : settings.any (fun s => s.groupId == gid && s.allUsersCell == "是") = false := by
      rw [List.any_eq_false]
      intro s hsm
      simp only [Bool.and_eq_true, beq_iff_eq, not_and]
      intro hg
      exact hs s hsm hg
    have h2 : operators.any
        (fun o => o.groupId == gid && o.userId == uid && o.status == "正常") = false := by
      rw [List.any_eq_false]
      intro o hom
      simp only [Bool.and_eq_true, beq_iff_eq, not_and]
      intro hg hst
      exact ho o hom ⟨hg.1, hg.2, hst⟩
    simp [authorize, checkUserPermission, h1, h2]
  · rintro ⟨s, hsm, hg, hy⟩
    have h1 : settings.any (fun s => s.groupId == gid && s.allUsersCell == "是") = true := by
      rw [List.any_eq_true]
      exact ⟨s, hsm, by simp [hg, hy]⟩
    simp [authorize, checkUserPermission, h1]

/-- Witness for C3 at concrete stores: an admin over an empty operator list
is authorized; a non-admin in a group whose settings row has the all-users
cell 否 and who is not an operator is denied; the same actor is authorized
once the cell is 是. -/
theorem C3_permission_resolver_witness :
    authorize true [] [] "g" "u" = true
    ∧ authorize false [⟨"g", 35, 6, 0, 6, "否", "", "中文"⟩] [] "g" "u" = false
    ∧ authorize false [⟨"g", 35, 6, 0, 6, "是", "", "中文"⟩] [] "g" "u" = true := by
  refine ⟨(C3_permission_resolver [] [] "g" "u").1,
    (C3_permission_resolver [⟨"g", 35, 6, 0, 6, "否", "", "中文"⟩] [] "g" "u").2.1
      ?_ ?_,
    (C3_permission_resolver [⟨"g", 35, 6, 0, 6, "是", "", "中文"⟩] [] "g" "u").2.2 ?_⟩
  · intro s hs
    rcases List.mem_cons.mp hs with h | h
    · subst h
      intro _
      decide
    · cases h
  · intro o ho
    cases ho
  · exact ⟨⟨"g", 35, 6, 0, 6, "是", "", "中文"⟩, List.mem_cons_self _ _, rfl, rfl⟩

/-- C4: in the cutoff-window report of the old showAllBills, with a set
last-refresh time every record timestamped strictly before it is excluded
from the line items and from the gross totals, every active matching record
timestamped at or after it is included, and with the last-refresh time unset
the window is exactly the active records of the group. -/
theorem C4_cutoff_window (rows : List LedgerRow) (gid lastRefresh : String)
    (r : LedgerRow) (er : ℚ) :
    (lastRefresh ≠ "" → strLt r.timestamp lastRefresh = true →
      r ∉ windowRecords rows gid lastRefresh
      ∧ windowTotal (r :: rows) gid lastRefresh er = windowTotal rows gid lastRefresh er)
    ∧ (r ∈ rows → r.groupId = gid → r.status = "正常" →
      strLt r.timestamp lastRefresh = false → r ∈ windowRecords rows gid lastRefresh)
    ∧ (lastRefresh = "" →
      windowRecords rows gid lastRefresh
        = rows.filter (fun x => x.groupId == gid && x.status == "正常")) := by
  refine ⟨?_, ?_, ?_⟩
  · intro hne hlt
    have hinc : cutoffIncluded gid lastRefresh r = false := by
      unfold cutoffIncluded
      rw [hlt]
      rw [show (lastRefresh != "") = true from by simp [bne_iff_ne, hne]]
      simp
    constructor
    · unfold windowRecords
      intro hmem
      have h := (List.mem_filter.mp hmem).2
      rw [hinc] at h
      cases h
    · unfold windowTotal windowRecords
      rw [List.filter_cons, hinc]
      simp
  · intro hmem hg hst hlt
    unfold windowRecords
    apply List.mem_filter.mpr
    refine ⟨hmem, ?_⟩
    unfold cutoffIncluded
    rw [hlt]
    simp [hg, hst]
  · intro h
    subst h
    unfold windowRecords
    apply List.filter_congr
    intro x _
    unfold cutoffIncluded
    simp

/-- Witness for C4: with the cutoff 2025-01-02 06:00:00, a record from the
previous day is excluded from the window and a record after the cutoff is
included. -/
theorem C4_cutoff_window_witness :
    (⟨"i1", "2025-01-01 10:00:00", "g", "u", "n", 100, Currency.thb, "正常", ""⟩ : LedgerRow)
        ∉ windowRecords
          [⟨"i1", "2025-01-01 10:00:00", "g", "u", "n", 100, Currency.thb, "正常", ""⟩,
           ⟨"i2", "2025-01-02 07:00:00", "g", "u", "n", 200, Currency.thb, "正常", ""⟩]
          "g" "2025-01-02 06:00:00"
    ∧ (⟨"i2", "2025-01-02 07:00:00", "g", "u", "n", 200, Currency.thb, "正常", ""⟩ : LedgerRow)
        ∈ windowRecords
          [⟨"i1", "2025-01-01 10:00:00", "g", "u", "n", 100, Currency.thb, "正常", ""⟩,
           ⟨"i2", "2025-01-02 07:00:00", "g", "u", "n", 200, Currency.thb, "正常", ""⟩]
          "g" "2025-01-02 06:00:00" := by
  constructor
  · exact ((C4_cutoff_window _ "g" "2025-01-02 06:00:00"
      ⟨"i1", "2025-01-01 10:00:00", "g", "u", "n", 100, Currency.thb, "正常", ""⟩ 0).1
      (by decide) (by decide)).1
  · exact (C4_cutoff_window _ "g" "2025-01-02 06:00:00"
      ⟨"i2", "2025-01-02 07:00:00", "g", "u", "n", 200, Currency.thb, "正常", ""⟩ 0).2.1
      (List.mem_cons_of_mem _ (List.mem_cons_self _ _)) rfl rfl (by decide)

/-- C5: the Command Interpreter maps "+150" to a THB deposit of 150, "+150$"
to a USD deposit of 150 and "-75.5" to a THB withdrawal of 75.5; in general
every trimmed message of the deposit regex shape (a plus sign, digits, an
optional fractional group, an optional dollar suffix) parses to a deposit
whose amount is the decimal value of the digits and whose currency is USD
exactly when the dollar suffix is present, and symmetrically a minus sign
yields the withdraw command. -/
theorem C5_interpreter :
    parse "+150".data = Command.deposit 150 Currency.thb
    ∧ parse "+150$".data = Command.deposit 150 Currency.usd
    ∧ parse "-75.5".data = Command.withdraw (75.5 : ℚ) Currency.thb
    ∧ (∀ (d1 d2 : List Char) (dollar : Bool),
        d1 ≠ [] → (∀ c ∈ d1, c.isDigit = true) → (∀ c ∈ d2, c.isDigit = true) →
        parse (signedMsg '+' d1 d2 dollar) = Command.deposit (decValue d1 d2) (ccy dollar)
        ∧ parse (signedMsg '-' d1 d2 dollar)
          = Command.withdraw (decValue d1 d2) (ccy dollar)) := by
  refine ⟨?_, ?_, ?_, ?_⟩
  · rw [show ("+150".data : List Char) = signedMsg '+' ['1', '5', '0'] [] false from rfl,
      parse_signedMsg_plus ['1', '5', '0'] [] false (by decide) (by decide) (by decide)]
    norm_num [decValue, ccy, show digitsVal ['1', '5', '0'] = 150 from by decide,
      show digitsVal ([] : List Char) = 0 from by decide]
  · rw [show ("+150$".data : List Char) = signedMsg '+' ['1', '5', '0'] [] true from rfl,
      parse_signedMsg_plus ['1', '5', '0'] [] true (by decide) (by decide) (by decide)]
    norm_num [decValue, ccy, show digitsVal ['1', '5', '0'] = 150 from by decide,
      show digitsVal ([] : List Char) = 0 from by decide]
  · rw [show ("-75.5".data : List Char) = signedMsg '-' ['7', '5'] ['5'] false from rfl,
      parse_signedMsg_minus ['7', '5'] ['5'] false (by decide) (by decide) (by decide)]
    norm_num [decValue, ccy, show digitsVal ['7', '5'] = 75 from by decide,
      show digitsVal ['5'] = 5 from by decide]
  · intro d1 d2 dollar h1 hd1 hd2
    exact ⟨parse_signedMsg_plus d1 d2 dollar h1 hd1 hd2,
      parse_signedMsg_minus d1 d2 dollar h1 hd1 hd2⟩

/-- Witness for C5 at the concrete shape plus, digits 2 dot 5, dollar. -/
theorem C5_interpreter_witness :
    parse (signedMsg '+' ['2'] ['5'] true) = Command.deposit (decValue ['2'] ['5']) (ccy true) :=
  (C5_interpreter.2.2.2 ['2'] ['5'] true (by decide) (by decide) (by decide)).1

/-- C6: for every input matching a fee-rate pattern the command is answered
with the range error and no settings tool is invoked when the parsed
percentage lies outside -100 to 100, while an in-range percentage invokes the
rate tool, whose store update makes the group's stored income fee rate equal
the parsed value; concretely 入款费率150 is rejected even though the regex
matches, and the boundaries 入款费率100 and 入款费率-100 are accepted and set
the rate. -/
theorem C6_fee_rate_validation :
    (∀ (env : Env) (gid uid uname : String) (nsp : Nat) (neg : Bool) (d1 d2 : List Char),
      env.isAdmin = true → d1 ≠ [] →
      (∀ c ∈ d1, c.isDigit = true) → (∀ c ∈ d2, c.isDigit = true) →
      ((signedVal neg d1 d2 < -100 ∨ 100 < signedVal neg d1 d2) →
        processMessage env gid uid uname (feeMsg "入款费率".data nsp neg d1 d2)
          = (Resp.rateRangeError, [])
        ∧ processMessage env gid uid uname (feeMsg "下发费率".data nsp neg d1 d2)
          = (Resp.rateRangeError, []))
      ∧ (¬(signedVal neg d1 d2 < -100 ∨ 100 < signedVal neg d1 d2) →
        processMessage env gid uid uname (feeMsg "入款费率".data nsp neg d1 d2)
          = (Resp.toolReply, [Action.setIncomeRate gid (signedVal neg d1 d2)])
        ∧ (lookupFeeRates
            (setIncomeFeeRateStore env.settings gid (signedVal neg d1 d2)) gid).1
          = signedVal neg d1 d2))
    ∧ processMessage adminTestEnv "g" "u" "n" "入款费率150".data = (Resp.rateRangeError, [])
    ∧ processMessage adminTestEnv "g" "u" "n" "入款费率100".data
      = (Resp.toolReply, [Action.setIncomeRate "g" 100])
    ∧ processMessage adminTestEnv "g" "u" "n" "入款费率-100".data
      = (Resp.toolReply, [Action.setIncomeRate "g" (-100)]) := by
  refine ⟨?_, ?_, ?_, ?_⟩
  · intro env gid uid uname nsp neg d1 d2 hadmin h1 hd1 hd2
    have hin := parse_feeMsg_income nsp neg d1 d2 h1 hd1 hd2
    have hout := parse_feeMsg_outgoing nsp neg d1 d2 h1 hd1 hd2
    constructor
    · intro hq
      constructor
      · rw [processMessage_income_fee env gid uid uname _ _ hin hadmin, if_pos hq]
      · rw [processMessage_outgoing_fee env gid uid uname _ _ hout hadmin, if_pos hq]
    · intro hq
      refine ⟨?_, lookup_setIncomeFeeRateStore env.settings gid _⟩
      rw [processMessage_income_fee env gid uid uname _ _ hin hadmin, if_neg hq]
  · have hparse : parse "入款费率150".data
        = Command.setIncomeFee (signedVal false ['1', '5', '0'] []) := by
      rw [show ("入款费率150".data : List Char)
          = feeMsg "入款费率".data 0 false ['1', '5', '0'] [] from rfl]
      exact parse_feeMsg_income 0 false ['1', '5', '0'] [] (by decide) (by decide) (by decide)
    have hval : signedVal false ['1', '5', '0'] [] = 150 := by
      norm_num [signedVal, decValue, show digitsVal ['1', '5', '0'] = 150 from by decide,
        show digitsVal ([] : List Char) = 0 from by decide]
    rw [processMessage_income_fee adminTestEnv "g" "u" "n" _ _ hparse rfl, hval,
      if_pos (by norm_num)]
  · have hparse : parse "入款费率100".data
        = Command.setIncomeFee (signedVal false ['1', '0', '0'] []) := by
      rw [show ("入款费率100".data : List Char)
          = feeMsg "入款费率".data 0 false ['1', '0', '0'] [] from rfl]
      exact parse_feeMsg_income 0 false ['1', '0', '0'] [] (by decide) (by decide) (by decide)
    have hval : signedVal false ['1', '0', '0'] [] = 100 := by
      norm_num [signedVal, decValue, show digitsVal ['1', '0', '0'] = 100 from by decide,
        show digitsVal ([] : List Char) = 0 from by decide]
    rw [processMessage_income_fee adminTestEnv "g" "u" "n" _ _ hparse rfl, hval,
      if_neg (by norm_num)]
  · have hparse : parse "入款费率-100".data
        = Command.setIncomeFee (signedVal true ['1', '0', '0'] []) := by
      rw [show ("入款费率-100".data : List Char)
          = feeMsg "入款费率".data 0 true ['1', '0', '0'] [] from rfl]
      exact parse_feeMsg_income 0 true ['1', '0', '0'] [] (by decide) (by decide) (by decide)
    have hval : signedVal true ['1', '0', '0'] [] = -100 := by
      norm_num [signedVal, decValue, show digitsVal ['1', '0', '0'] = 100 from by decide,
        show digitsVal ([] : List Char) = 0 from by decide]
    rw [processMessage_income_fee adminTestEnv "g" "u" "n" _ _ hparse rfl, hval,
      if_neg (by norm_num)]

/-- Witness for C6 at the out-of-range input 入款费率 200 (one space). -/
theorem C6_fee_rate_validation_witness :
    processMessage adminTestEnv "g" "u" "n" (feeMsg "入款费率".data 1 false ['2', '0', '0'] [])
      = (Resp.rateRangeError, []) := by
  refine ((C6_fee_rate_validation.1 adminTestEnv "g" "u" "n" 1 false ['2', '0', '0'] []
    rfl (by decide) (by decide) (by decide)).1 ?_).1
  norm_num [signedVal, decValue, show digitsVal ['2', '0', '0'] = 200 from by decide,
    show digitsVal ([] : List Char) = 0 from by decide]

theorem decValue_nonneg (d1 d2 : List Char) : 0 ≤ decValue d1 d2 := by
  unfold decValue
  apply add_nonneg (Nat.cast_nonneg _)
  apply div_nonneg (Nat.cast_nonneg _)
  positivity

theorem matchAmountDollar_nonneg (l : List Char) (a : ℚ × Bool)
    (h : matchAmountDollar l = some a) : 0 ≤ a.1 := by
  simp only [matchAmountDollar] at h
  repeat' split at h
  all_goals cases h
  all_goals exact decValue_nonneg _ _

theorem matchSigned_nonneg (sign : Char) (l : List Char) (a : ℚ × Bool)
    (h : matchSigned sign l = some a) : 0 ≤ a.1 := by
  unfold matchSigned at h
  split at h
  · cases h
  · split at h
    · exact matchAmountDollar_nonneg _ _ h
    · cases h

theorem parse_deposit_nonneg (raw : List Char) (q : ℚ) (c : Currency)
    (h : parse raw = Command.deposit q c) : 0 ≤ q := by
  simp only [parse] at h
  repeat' split at h
  all_goals injection h
  all_goals
    rename_i a heq h1 h2
    rw [← h1]
    exact matchSigned_nonneg '+' _ a heq

theorem parse_withdraw_nonneg (raw : List Char) (q : ℚ) (c : Currency)
    (h : parse raw = Command.withdraw q c) : 0 ≤ q := by
  simp only [parse] at h
  repeat' split at h
  all_goals injection h
  all_goals
    rename_i a heq h1 h2
    rw [← h1]
    exact matchSigned_nonneg '-' _ a heq

theorem addIncome_mem_actions (env : Env) (gid uid uname : String) (raw : List Char)
    (g u n : String) (q : ℚ) (c : Currency)
    (h : Action.addIncome g u n q c ∈ (processMessage env gid uid uname raw).2) :
    parse raw = Command.deposit q c := by
  cases hp : parse raw <;> simp only [processMessage, hp] at h
  case whoami => simp at h
  case addOp =>
    repeat' split at h
    all_goals simp at h
  case removeOp =>
    repeat' split at h
    all_goals simp at h
  case listOps => simp at h
  case deposit q2 c2 =>
    split at h
    · simp only [execGated, List.mem_cons, List.not_mem_nil, or_false] at h
      rcases h with h | h
      · injection h with h1 h2 h3 h4 h5
        rw [← h4, ← h5]
      · exact Action.noConfusion h
    · simp at h
  case withdraw q2 c2 =>
    split at h
    · simp only [execGated, List.mem_cons, List.not_mem_nil, or_false] at h
      rcases h with h | h <;> exact absurd h (by simp)
    · simp at h
  case showLedger full =>
    split at h <;> simp [execGated] at h
  case dailySettle =>
    split at h <;> simp [execGated] at h
  case setIncomeFee q2 =>
    split at h
    · simp only [execGated] at h
      split at h <;> simp at h
    · simp at h
  case setOutgoingFee q2 =>
    split at h
    · simp only [execGated] at h
      split at h <;> simp at h
    · simp at h
  case deleteAllCmd =>
    split at h <;> simp [execGated] at h
  case unrecognized =>
    split at h <;> simp [execGated] at h

theorem addOutgoing_mem_actions (env : Env) (gid uid uname : String) (raw : List Char)
    (g u n : String) (q : ℚ) (c : Currency)
    (h : Action.addOutgoing g u n q c ∈ (processMessage env gid uid uname raw).2) :
    parse raw = Command.withdraw q c := by
  cases hp : parse raw <;> simp only [processMessage, hp] at h
  case whoami => simp at h
  case addOp =>
    repeat' split at h
    all_goals simp at h
  case removeOp =>
    repeat' split at h
    all_goals simp at h
  case listOps => simp at h
  case deposit q2 c2 =>
    split at h
    · simp only [execGated, List.mem_cons, List.not_mem_nil, or_false] at h
      rcases h with h | h <;> exact absurd h (by simp)
    · simp at h
  case withdraw q2 c2 =>
    split at h
    · simp only [execGated, List.mem_cons, List.not_mem_nil, or_false] at h
      rcases h with h | h
      · injection h with h1 h2 h3 h4 h5
        rw [← h4, ← h5]
      · exact Action.noConfusion h
    · simp at h
  case showLedger full =>
    split at h <;> simp [execGated] at h
  case dailySettle =>
    split at h <;> simp [execGated] at h
  case setIncomeFee q2 =>
    split at h
    · simp only [execGated] at h
      split at h <;> simp at h
    · simp at h
  case setOutgoingFee q2 =>
    split at h
    · simp only [execGated] at h
      split at h <;> simp at h
    · simp at h
  case deleteAllCmd =>
    split at h <;> simp [execGated] at h
  case unrecognized =>
    split at h <;> simp [execGated] at h

theorem processMessage_deposit (env : Env) (gid uid uname : String) (raw : List Char)
    (q : ℚ) (c : Currency) (hparse : parse raw = Command.deposit q c)
    (hadmin : env.isAdmin = true) :
    processMessage env gid uid uname raw
      = (Resp.toolReply, [Action.addIncome gid uid uname q c, Action.showBills gid false]) := by
  simp only [processMessage, hparse, authorize, hadmin, Bool.true_or, if_true, execGated]

/-- The commands behind the authorization gate: everything except 我的ID,
add operator, remove operator and list operators. -/
def gatedCmd : Command → Bool
  | Command.whoami => false
  | Command.addOp => false
  | Command.removeOp => false
  | Command.listOps => false
  | _ => true

/-- C8: the old showAllBills performs no exchange-rate-zero guard: with a
GroupSettings row whose exchange rate is 0 and one active deposit of 100, the
report still carries success true, the per-record USDT column is the result
of dividing 100 by 0 (the non-finite JS value, modelled as none) and the USDT
balance likewise, refuting the claim that the calculator rejects the input as
a ValidationError before any division by the exchange rate. -/
theorem C8_no_exchange_rate_guard :
    (queryShowAllBills [⟨"g", 0, 5, 0, 6, "否", "", "中文"⟩]
      [⟨"i1", "2025-01-01 10:00:00", "g", "u", "n", 100, Currency.thb, "正常", ""⟩]
      [] "g").success = true
    ∧ (queryShowAllBills [⟨"g", 0, 5, 0, 6, "否", "", "中文"⟩]
      [⟨"i1", "2025-01-01 10:00:00", "g", "u", "n", 100, Currency.thb, "正常", ""⟩]
      [] "g").incomeUsdt = [none]
    ∧ (queryShowAllBills [⟨"g", 0, 5, 0, 6, "否", "", "中文"⟩]
      [⟨"i1", "2025-01-01 10:00:00", "g", "u", "n", 100, Currency.thb, "正常", ""⟩]
      [] "g").balanceUsdt = none := by
  refine ⟨rfl, ?_, ?_⟩
  · decide
  · decide

/-- C9 counterexample: the message +0 matches the deposit regex, is accepted
as a deposit of amount 0, and the add-income tool is invoked with amount 0,
so the appended Deposits row carries amount 0, which is not strictly
positive. -/
theorem C9_zero_amount_counterexample :
    parse "+0".data = Command.deposit 0 Currency.thb
    ∧ processMessage adminTestEnv "g" "u" "n" "+0".data
      = (Resp.toolReply, [Action.addIncome "g" "u" "n" 0 Currency.thb,
          Action.showBills "g" false])
    ∧ (mkIncomeRow "INC_1" "2025-01-01 00:00:00" "g" "u" "n" 0 Currency.thb "").amount = 0
    ∧ ¬((0 : ℚ) > 0) := by
  have hp : parse "+0".data = Command.deposit 0 Currency.thb := by
    rw [show ("+0".data : List Char) = signedMsg '+' ['0'] [] false from rfl,
      parse_signedMsg_plus ['0'] [] false (by decide) (by decide) (by decide)]
    norm_num [decValue, ccy, show digitsVal ['0'] = 0 from by decide,
      show digitsVal ([] : List Char) = 0 from by decide]
  refine ⟨hp, ?_, rfl, by norm_num⟩
  rw [processMessage_deposit adminTestEnv "g" "u" "n" _ 0 Currency.thb hp rfl]

/-- C9 amended: every amount the interpreter accepts as a deposit or
withdrawal, and every amount passed to the add-income or add-outgoing tool by
the workflow, is nonnegative (not, as claimed, strictly positive: +0 is
accepted with amount 0), and the appended ledger row stores exactly that
amount with status 正常. -/
theorem C9_amount_nonneg (raw : List Char) (q : ℚ) (c : Currency) :
    (parse raw = Command.deposit q c → 0 ≤ q)
    ∧ (parse raw = Command.withdraw q c → 0 ≤ q)
    ∧ (∀ (env : Env) (gid uid uname g u n : String),
        Action.addIncome g u n q c ∈ (processMessage env gid uid uname raw).2 → 0 ≤ q)
    ∧ (∀ (env : Env) (gid uid uname g u n : String),
        Action.addOutgoing g u n q c ∈ (processMessage env gid uid uname raw).2 → 0 ≤ q)
    ∧ (∀ rid ts g u n mid,
        (mkIncomeRow rid ts g u n q c mid).amount = q
        ∧ (mkIncomeRow rid ts g u n q c mid).status = "正常") := by
  refine ⟨parse_deposit_nonneg raw q c, parse_withdraw_nonneg raw q c, ?_, ?_,
    fun rid ts g u n mid => ⟨rfl, rfl⟩⟩
  · intro env gid uid uname g u n h
    exact parse_deposit_nonneg raw q c (addIncome_mem_actions env gid uid uname raw g u n q c h)
  · intro env gid uid uname g u n h
    exact parse_withdraw_nonneg raw q c
      (addOutgoing_mem_actions env gid uid uname raw g u n q c h)

/-- Witness for C9 amended at the accepted deposit +5. -/
theorem C9_amount_nonneg_witness :
    parse "+5".data = Command.deposit 5 Currency.thb ∧ (0 : ℚ) ≤ 5 := by
  have hp : parse "+5".data = Command.deposit 5 Currency.thb := by
    rw [show ("+5".data : List Char) = signedMsg '+' ['5'] [] false from rfl,
      parse_signedMsg_plus ['5'] [] false (by decide) (by decide) (by decide)]
    norm_num [decValue, ccy, show digitsVal ['5'] = 5 from by decide,
      show digitsVal ([] : List Char) = 0 from by decide]
  exact ⟨hp, (C9_amount_nonneg "+5".data 5 Currency.thb).1 hp⟩

/-- C10: with the admin lookup failed and checkUserPermission denying, every
tool the workflow may still invoke is the operator-list read (the only
always-allowed tool call), and for every command other than 我的ID, add
operator, remove operator and list operators the workflow answers with the
permission denial and invokes no tool at all. -/
theorem C10_authorization_gate (env : Env) (gid uid uname : String) (raw : List Char)
    (hA : env.isAdmin = false)
    (hP : checkUserPermission env.settings env.operators gid uid = false) :
    (∀ a ∈ (processMessage env gid uid uname raw).2, a = Action.listOperators gid)
    ∧ (gatedCmd (parse raw) = true →
        processMessage env gid uid uname raw = (Resp.permissionDenied, [])) := by
  have hauth : authorize env.isAdmin env.settings env.operators gid uid = false := by
    rw [authorize, hA, hP]
    rfl
  constructor
  · intro a ha
    cases hp : parse raw <;> simp only [processMessage, hp] at ha
    case whoami => simp at ha
    case addOp =>
      rw [hA] at ha
      simp at ha
    case removeOp =>
      rw [hA] at ha
      simp at ha
    case listOps => simpa using ha
    all_goals rw [hauth] at ha
    all_goals simp at ha
  · intro hg
    cases hp : parse raw <;> simp [gatedCmd, hp] at hg
    all_goals simp only [processMessage, hp, hauth]
    all_goals simp

/-- Witness for C10: the unauthorized actor sending the ledger query 总账
gets the denial and no tool call. -/
theorem C10_authorization_gate_witness :
    processMessage noPermTestEnv "g" "u" "n" "总账".data = (Resp.permissionDenied, []) := by
  refine (C10_authorization_gate noPermTestEnv "g" "u" "n" "总账".data rfl rfl).2 ?_
  decide

theorem filter_active_map_currency (gid : String) (fc : LedgerRow → Currency)
    (l : List LedgerRow) :
    (l.map (fun r => { r with currency := fc r })).filter (activeForGroup gid)
      = (l.filter (activeForGroup gid)).map (fun r => { r with currency := fc r }) := by
  induction l with
  | nil => rfl
  | cons r t ih =>
    have hc : activeForGroup gid { r with currency := fc r } = activeForGroup gid r := rfl
    cases h : activeForGroup gid r <;>
      simp [List.filter_cons, List.map_cons, hc, h, ih]

theorem rowsSum_map_currency (fc : LedgerRow → Currency) (l : List LedgerRow) :
    rowsSum (l.map (fun r => { r with currency := fc r })) = rowsSum l := by
  induction l with
  | nil => rfl
  | cons r t ih => simp [rowsSum, List.map_cons, List.sum_cons] at ih ⊢; simp [ih]

theorem find?_group_map_exchangeRate (fe : SettingsRow → ℚ)
    (t : List SettingsRow) (gid : String) :
    (t.map (fun s => { s with exchangeRate := fe s })).find? (fun s => s.groupId == gid)
      = (t.find? (fun s => s.groupId == gid)).map (fun s => { s with exchangeRate := fe s }) := by
  induction t with
  | nil => rfl
  | cons s t ih => cases h : (s.groupId == gid) <;> simp [List.find?, h, ih]

theorem lookupFeeRates_map_exchangeRate (fe : SettingsRow → ℚ)
    (settings : List SettingsRow) (gid : String) :
    lookupFeeRates (settings.map (fun s => { s with exchangeRate := fe s })) gid
      = lookupFeeRates settings gid := by
  unfold lookupFeeRates
  rw [find?_group_map_exchangeRate]
  cases settings.find? (fun s => s.groupId == gid) with
  | none => rfl
  | some s => rfl

/-- C1: for every list of records and every settings value the settlement
calculation (showAllBills of the live queryTools revision, and the identical
arithmetic in dailySettlement) returns
actualIncome = totalIncome * (100 - incomeFeeRate) / 100,
actualOutgoing = totalOutgoing * (100 + outgoingFeeRate) / 100 and
netProfit = actualIncome - actualOutgoing; in particular deposits summing to
1000 at income fee rate 6 yield 940, withdrawals summing to 500 at outgoing
fee rate 0 yield 500, and the net balance is 440. -/
theorem C1_fee_arithmetic :
    (∀ (settings : List SettingsRow) (deps wds : List LedgerRow) (gid : String),
      (showAllBillsCalc settings deps wds gid).actualIncome
        = (showAllBillsCalc settings deps wds gid).totalIncome
          * ((100 - (lookupFeeRates settings gid).1) / 100)
      ∧ (showAllBillsCalc settings deps wds gid).actualOutgoing
        = (showAllBillsCalc settings deps wds gid).totalOutgoing
          * ((100 + (lookupFeeRates settings gid).2) / 100)
      ∧ (showAllBillsCalc settings deps wds gid).netProfit
        = (showAllBillsCalc settings deps wds gid).actualIncome
          - (showAllBillsCalc settings deps wds gid).actualOutgoing)
    ∧ (∀ (settings : List SettingsRow) (gid today : String) (deps wds : List LedgerRow),
      (dailySettlementRun settings gid today deps wds).report.actualIncome
        = (dailySettlementRun settings gid today deps wds).report.totalIncome
          * ((100 - (lookupFeeRates settings gid).1) / 100)
      ∧ (dailySettlementRun settings gid today deps wds).report.actualOutgoing
        = (dailySettlementRun settings gid today deps wds).report.totalOutgoing
          * ((100 + (lookupFeeRates settings gid).2) / 100)
      ∧ (dailySettlementRun settings gid today deps wds).report.netProfit
        = (dailySettlementRun settings gid today deps wds).report.actualIncome
          - (dailySettlementRun settings gid today deps wds).report.actualOutgoing)
    ∧ (showAllBillsCalc [⟨"g", 35, 6, 0, 6, "否", "", "中文"⟩]
        [⟨"i1", "2025-01-01 10:00:00", "g", "u", "n", 600, Currency.thb, "正常", ""⟩,
         ⟨"i2", "2025-01-01 11:00:00", "g", "u", "n", 400, Currency.thb, "正常", ""⟩]
        [⟨"o1", "2025-01-01 12:00:00", "g", "u", "n", 500, Currency.thb, "正常", ""⟩]
        "g").actualIncome = 940
    ∧ (showAllBillsCalc [⟨"g", 35, 6, 0, 6, "否", "", "中文"⟩]
        [⟨"i1", "2025-01-01 10:00:00", "g", "u", "n", 600, Currency.thb, "正常", ""⟩,
         ⟨"i2", "2025-01-01 11:00:00", "g", "u", "n", 400, Currency.thb, "正常", ""⟩]
        [⟨"o1", "2025-01-01 12:00:00", "g", "u", "n", 500, Currency.thb, "正常", ""⟩]
        "g").actualOutgoing = 500
    ∧ (showAllBillsCalc [⟨"g", 35, 6, 0, 6, "否", "", "中文"⟩]
        [⟨"i1", "2025-01-01 10:00:00", "g", "u", "n", 600, Currency.thb, "正常", ""⟩,
         ⟨"i2", "2025-01-01 11:00:00", "g", "u", "n", 400, Currency.thb, "正常", ""⟩]
        [⟨"o1", "2025-01-01 12:00:00", "g", "u", "n", 500, Currency.thb, "正常", ""⟩]
        "g").netProfit = 440 := by
  refine ⟨?_, ?_, ?_, ?_, ?_⟩
  · intro settings deps wds gid
    refine ⟨rfl, ?_, rfl⟩
    have ht : (showAllBillsCalc settings deps wds gid).totalOutgoing
        = rowsSum (wds.filter (activeForGroup gid)) := rfl
    have ha : (showAllBillsCalc settings deps wds gid).actualOutgoing
        = rowsSum (wds.filter (activeForGroup gid))
          * (1 + (lookupFeeRates settings gid).2 / 100) := rfl
    rw [ht, ha]
    ring
  · intro settings gid today deps wds
    refine ⟨rfl, ?_, rfl⟩
    have ht : (dailySettlementRun settings gid today deps wds).report.totalOutgoing
        = rowsSum (wds.filter (settleIncluded gid today)) := rfl
    have ha : (dailySettlementRun settings gid today deps wds).report.actualOutgoing
        = rowsSum (wds.filter (settleIncluded gid today))
          * (1 + (lookupFeeRates settings gid).2 / 100) := rfl
    rw [ht, ha]
    ring
  · simp only [showAllBillsCalc, lookupFeeRates, rowsSum, activeForGroup, List.filter,
      List.find?, List.map]
    norm_num
  · simp only [showAllBillsCalc, lookupFeeRates, rowsSum, activeForGroup, List.filter,
      List.find?, List.map]
    norm_num
  · simp only [showAllBillsCalc, lookupFeeRates, rowsSum, activeForGroup, List.filter,
      List.find?, List.map]
    norm_num

/-- C2: the gross totals of the settlement calculation are the plain sums of
the active matching records' amounts, with no cross-currency conversion: the
totals equal rowsSum of the filtered rows, reassigning every record's
currency arbitrarily does not change the report, and neither does changing
the exchangeRate cell of every settings row. -/
theorem C2_gross_plain_sums :
    ∀ (settings : List SettingsRow) (deps wds : List LedgerRow) (gid : String)
      (fc : LedgerRow → Currency) (fe : SettingsRow → ℚ),
      (showAllBillsCalc settings deps wds gid).totalIncome
        = rowsSum (deps.filter (activeForGroup gid))
      ∧ (showAllBillsCalc settings deps wds gid).totalOutgoing
        = rowsSum (wds.filter (activeForGroup gid))
      ∧ showAllBillsCalc settings
          (deps.map (fun r => { r with currency := fc r }))
          (wds.map (fun r => { r with currency := fc r })) gid
        = showAllBillsCalc settings deps wds gid
      ∧ showAllBillsCalc (settings.map (fun s => { s with exchangeRate := fe s }))
          deps wds gid
        = showAllBillsCalc settings deps wds gid := by
  intro settings deps wds gid fc fe
  refine ⟨rfl, rfl, ?_, ?_⟩
  · simp only [showAllBillsCalc, filter_active_map_currency, rowsSum_map_currency,
      List.length_map]
  · simp only [showAllBillsCalc, lookupFeeRates_map_exchangeRate]

theorem settleIncluded_markSettled (gid today : String) (r : LedgerRow) :
    settleIncluded gid today (markSettled gid today r) = false := by
  cases h : settleIncluded gid today r with
  | false => simp [markSettled, h]
  | true =>
    simp only [markSettled, h, if_true]
    show (r.groupId == gid && ("已结算" == "正常") && (dateOf r.timestamp == today)) = false
    rw [show (("已结算" : String) == "正常") = false from by decide]
    simp

theorem filter_settled_nil (gid today : String) (rows : List LedgerRow) :
    (rows.map (markSettled gid today)).filter (settleIncluded gid today) = [] := by
  induction rows with
  | nil => rfl
  | cons r t ih => simp [List.filter_cons, settleIncluded_markSettled, ih]

theorem markSettled_idem (gid today : String) (r : LedgerRow) :
    markSettled gid today (markSettled gid today r) = markSettled gid today r := by
  have h := settleIncluded_markSettled gid today r
  conv_lhs => rw [markSettled]
  rw [h]
  simp

theorem map_markSettled_idem (gid today : String) (rows : List LedgerRow) :
    (rows.map (markSettled gid today)).map (markSettled gid today)
      = rows.map (markSettled gid today) := by
  induction rows with
  | nil => rfl
  | cons r t ih => simp [List.map_cons, markSettled_idem, ih]

theorem activeForGroup_deleteMarked (gid : String) (r : LedgerRow) :
    activeForGroup gid (deleteMarked gid r) = false := by
  cases h : activeForGroup gid r with
  | false => simp [deleteMarked, h]
  | true =>
    simp only [deleteMarked, h, if_true]
    show (r.groupId == gid && ("已删除" == "正常")) = false
    rw [show (("已删除" : String) == "正常") = false from by decide]
    simp

theorem filter_deleted_nil (gid : String) (rows : List LedgerRow) :
    (rows.map (deleteMarked gid)).filter (activeForGroup gid) = [] := by
  induction rows with
  | nil => rfl
  | cons r t ih => simp [List.filter_cons, activeForGroup_deleteMarked, ih]

theorem deleteMarked_idem (gid : String) (r : LedgerRow) :
    deleteMarked gid (deleteMarked gid r) = deleteMarked gid r := by
  have h := activeForGroup_deleteMarked gid r
  conv_lhs => rw [deleteMarked]
  rw [h]
  simp

theorem map_deleteMarked_idem (gid : String) (rows : List LedgerRow) :
    (rows.map (deleteMarked gid)).map (deleteMarked gid) = rows.map (deleteMarked gid) := by
  induction rows with
  | nil => rfl
  | cons r t ih => simp [List.map_cons, deleteMarked_idem, ih]

/-- C7: dailySettlement and deleteAllRecords are idempotent under double
invocation: after a first run has marked every included active row 已结算
(respectively 已删除), a second run over the resulting sheets includes no
row, so it reports zero counts and totals, marks nothing (the sheets are
unchanged) and does not error. -/
theorem C7_double_invocation :
    ∀ (settings : List SettingsRow) (gid today : String) (deps wds : List LedgerRow),
      ((dailySettlementRun settings gid today
          (dailySettlementRun settings gid today deps wds).deps
          (dailySettlementRun settings gid today deps wds).wds).report.incomeCount = 0
      ∧ (dailySettlementRun settings gid today
          (dailySettlementRun settings gid today deps wds).deps
          (dailySettlementRun settings gid today deps wds).wds).report.outgoingCount = 0
      ∧ (dailySettlementRun settings gid today
          (dailySettlementRun settings gid today deps wds).deps
          (dailySettlementRun settings gid today deps wds).wds).report.totalIncome = 0
      ∧ (dailySettlementRun settings gid today
          (dailySettlementRun settings gid today deps wds).deps
          (dailySettlementRun settings gid today deps wds).wds).report.totalOutgoing = 0
      ∧ (dailySettlementRun settings gid today
          (dailySettlementRun settings gid today deps wds).deps
          (dailySettlementRun settings gid today deps wds).wds).report.netProfit = 0
      ∧ (dailySettlementRun settings gid today
          (dailySettlementRun settings gid today deps wds).deps
          (dailySettlementRun settings gid today deps wds).wds).deps
        = (dailySettlementRun settings gid today deps wds).deps
      ∧ (dailySettlementRun settings gid today
          (dailySettlementRun settings gid today deps wds).deps
          (dailySettlementRun settings gid today deps wds).wds).wds
        = (dailySettlementRun settings gid today deps wds).wds)
      ∧ ((deleteAllRun gid (deleteAllRun gid deps).1).2 = 0
      ∧ (deleteAllRun gid (deleteAllRun gid deps).1).1 = (deleteAllRun gid deps).1) := by
  intro settings gid today deps wds
  constructor
  · simp only [dailySettlementRun, filter_settled_nil, map_markSettled_idem,
      List.length_nil, rowsSum, List.map_nil, List.sum_nil, zero_mul, sub_zero, sub_self]
    exact ⟨trivial, trivial, trivial, trivial, trivial, trivial, trivial⟩
  · simp only [deleteAllRun, filter_deleted_nil, map_deleteMarked_idem, List.length_nil]
    exact ⟨trivial, trivial⟩

end TGBot
